import Mathlib

/-!
Verification of the givy allocator core against its specification.

This file shallowly embeds the relevant parts of the C++ sources
(`src/superpage_tracker.h`, `src/allocator.h`, `src/bitmask.h`,
`src/utility.h`, `src/gas_layout.h`, `src/intrusive_list.h`) as
executable Lean definitions, and proves or refutes the spec claims
about them.  Machine integers are modelled as `Nat` with explicit
`% 2^64` where the C++ computation can wrap; loops are modelled by
structural recursion on an explicit fuel argument that, at each call
site, is at least the number of iterations the C++ loop can perform,
so the fuel never runs out on the modelled executions.
-/

set_option maxRecDepth 100000

namespace Givy

/-! ### Math helpers (src/utility.h, namespace Math) -/

/-- `Math::divide_up (n, div) = (n + div - 1) / div` on `size_t`: the
addition wraps modulo `2^64`. -/
def divide_up (n d : Nat) : Nat := (n + d - 1) % 2 ^ 64 / d

/-- `Math::is_power_of_2 (x) = x > 0 && (x & (x - 1)) == 0`. -/
def is_power_of_2 (x : Nat) : Bool := 0 < x && x &&& (x - 1) == 0

/-! ### BitMask (src/bitmask.h, `BitMask<std::uintmax_t>`, Bits = 64)

`loopLenAux` models the counting loop of `count_msb_zeros`
(`for (; c; c >>= 1, --b);`): it returns the number of iterations,
i.e. the binary length of `c`.  The fuel 64 bounds the loop for any
64-bit value `c < 2^64`. -/

def loopLenAux : Nat → Nat → Nat
  | 0, _ => 0
  | f + 1, c => if c = 0 then 0 else loopLenAux f (c / 2) + 1

/-- All-ones 64-bit word: `BitMask::ones ()`. -/
def ones64 : Nat := 2 ^ 64 - 1

/-- `BitMask::lsb_ones (nb)`: `nb` ones in the low bits. -/
def lsb_ones (nb : Nat) : Nat := if nb = 0 then 0 else ones64 >>> (64 - nb)

/-- `BitMask::window_size (start, size)` (64-bit left shift). -/
def window_size (start size : Nat) : Nat :=
  if start = 64 then 0 else (lsb_ones size <<< start) % 2 ^ 64

/-- `BitMask::window_bound (start, end)`: ones exactly in `[start, end)`. -/
def window_bound (start e : Nat) : Nat := window_size start (e - start)

/-- `BitMask::is_set (i, bit)`. -/
def is_set (i bit : Nat) : Bool := (1 <<< bit) &&& i != 0

/-- `BitMask::count_msb_zeros (c)`: `Bits` minus the binary length of `c`. -/
def count_msb_zeros (c : Nat) : Nat := 64 - loopLenAux 64 c

/-- `BitMask::count_msb_ones (c) = count_msb_zeros (~c)` (64-bit complement). -/
def count_msb_ones (c : Nat) : Nat := count_msb_zeros (ones64 ^^^ c)

/-- Loop of `BitMask::find_zero_subsequence`; the shifted window is reduced
mod `2^64` like the C++ 64-bit left shift. -/
def fzsAux (searched : Nat) (len : Nat) : Nat → Nat → Nat → Nat → Nat
  | _bitWindow, _windowEnd, _upTo, 0 => 64
  | bitWindow, windowEnd, upTo, f + 1 =>
    if windowEnd ≤ upTo then
      if searched &&& bitWindow = 0 then windowEnd - len
      else fzsAux searched len ((bitWindow <<< 1) % 2 ^ 64) (windowEnd + 1) upTo f
    else 64

/-- `BitMask::find_zero_subsequence (searched, len, from_bit, up_to_bit)`. -/
def find_zero_subsequence (searched len fromBit upTo : Nat) : Nat :=
  fzsAux searched len (window_bound fromBit (fromBit + len)) (fromBit + len) upTo (upTo + 2)

/-- `BitMask::find_previous_zero (c, pos)`: offset of the last 0 bit of `c`
in `[0, pos]`, or `Bits` (64) if there is none. -/
def find_previous_zero (c pos : Nat) : Nat :=
  let sh := (c <<< (63 - pos)) % 2 ^ 64
  let d := count_msb_ones sh
  if pos < d then 64 else pos - d

/-! Additional Math functions built on the bit counting loop
(src/utility.h): `log_2_inf`, `log_2_sup`, `round_up_as_power_of_2`. -/

/-- `Math::log_2_inf (x) = (Bits - 1) - count_msb_zeros (x)` (requires `x > 0`). -/
def log_2_inf (x : Nat) : Nat := 63 - count_msb_zeros x

/-- `Math::log_2_sup (x) = log_2_inf (x - 1) + 1` (requires `x > 1`). -/
def log_2_sup (x : Nat) : Nat := log_2_inf (x - 1) + 1

/-- `Math::round_up_as_power_of_2 (x) = 1 << log_2_sup (x)`. -/
def round_up_as_power_of_2 (x : Nat) : Nat := 2 ^ log_2_sup x

/-! ### GasLayout (src/gas_layout.h)

Virtual-memory constants from src/gas_layout.h / src/base_defs.h:
`page_size = 2^12`, `superpage_size = 2^21`, `superpage_page_nb = 2^9`. -/

def page_size : Nat := 4096

def superpage_size : Nat := 2097152

def superpage_page_nb : Nat := 512

/-- `GasLayout` (src/gas_layout.h); `start` is the already superpage-aligned
start address of the GAS. -/
structure GasLayout where
  start : Nat
  space_by_node : Nat
  nb_node : Nat
  local_node : Nat
deriving DecidableEq

def GasLayout.superpage_by_node (L : GasLayout) : Nat :=
  divide_up L.space_by_node superpage_size

def GasLayout.node_area_start_superpage_num (L : GasLayout) (node : Nat) : Nat :=
  L.superpage_by_node * node

def GasLayout.node_area_end_superpage_num (L : GasLayout) (node : Nat) : Nat :=
  L.node_area_start_superpage_num (node + 1)

def GasLayout.local_area_start_superpage_num (L : GasLayout) : Nat :=
  L.node_area_start_superpage_num L.local_node

def GasLayout.local_area_end_superpage_num (L : GasLayout) : Nat :=
  L.node_area_end_superpage_num L.local_node

/-- `GasLayout::superpage (num)`: address of superpage `num`. -/
def GasLayout.superpage (L : GasLayout) (num : Nat) : Nat :=
  L.start + superpage_size * num

/-- `GasLayout::superpage_num (ptr)`. -/
def GasLayout.superpage_num (L : GasLayout) (p : Nat) : Nat :=
  (p - L.start) / superpage_size

def GasLayout.local_area_start (L : GasLayout) : Nat :=
  L.superpage L.local_area_start_superpage_num

def GasLayout.local_area_end (L : GasLayout) : Nat :=
  L.superpage L.local_area_end_superpage_num

/-- `GasLayout::in_local_area (ptr)` (src/gas_layout.h line 68). -/
def GasLayout.in_local_area (L : GasLayout) (p : Nat) : Bool :=
  L.local_area_start ≤ p && p < L.local_area_end

/-! ### SuperpageTracker (src/superpage_tracker.h)

State: the two bitmap tables, as functions from word index to 64-bit
word value.  `SuperpageTracker::Index` is the (array index, bit index)
pair. -/

/-- `SuperpageTracker::Index`. -/
structure Idx where
  ai : Nat
  bi : Nat
deriving DecidableEq

/-- `Index (superpage_num)`: conversion from a superpage number. -/
def Idx.ofNum (n : Nat) : Idx := ⟨n / 64, n % 64⟩

/-- `Index::superpage_num ()`. -/
def Idx.num (i : Idx) : Nat := i.ai * 64 + i.bi

/-- `Index::operator<` (lexicographic through `std::tie`). -/
def Idx.lt (a b : Idx) : Bool := a.ai < b.ai || (a.ai == b.ai && a.bi < b.bi)

/-- The two bitmap tables of `SuperpageTracker`. -/
structure TrackerState where
  mapping : Nat → Nat
  sequence : Nat → Nat

/-- Pointwise update of a word table. -/
def updw (f : Nat → Nat) (i v : Nat) : Nat → Nat :=
  fun j => if j = i then v else f j

/-- The all-zero initial tracker state (tables are allocated zero-filled
by the `SuperpageTracker` constructor, `BitArray::zeros ()`). -/
def TrackerState.init : TrackerState := ⟨fun _ => 0, fun _ => 0⟩

/-- 64-bit complement, as used by `fetch_and (~bits)`. -/
def compl64 (b : Nat) : Nat := ones64 ^^^ b

/-- Middle-word loop of the multicell branch of
`SuperpageTracker::set_mapping_bits`: each middle word is set to
full-ones by `compare_exchange_strong` expecting zero; the loop `break`s
on the first failing CAS.  Returns the final loop index and table.
Fuel is `e - i` at the call site, exactly the iteration count. -/
def casMiddleLoop (m : Nat → Nat) (i e : Nat) : Nat → Nat × (Nat → Nat)
  | 0 => (i, m)
  | f + 1 =>
    if i < e then
      if m i = 0 then casMiddleLoop (updw m i ones64) (i + 1) e f else (i, m)
    else (i, m)

/-- Cleanup loop of `set_mapping_bits`: unconditional stores of zero to
the middle words `[i, stop)` already set in the failed attempt. -/
def storeZerosLoop (m : Nat → Nat) (i stop : Nat) : Nat → Nat → Nat
  | 0 => m
  | f + 1 => if i < stop then storeZerosLoop (updw m i 0) (i + 1) stop f else m

/-- `SuperpageTracker::set_mapping_bits` on the mapping table, with
sequential `compare_exchange_strong` semantics (succeeds iff the word
equals the expected value).  Returns the success flag and the table. -/
def set_mapping_bits (m : Nat → Nat) (ls : Idx) (expS : Nat) (le : Idx) (expE : Nat) :
    Bool × (Nat → Nat) :=
  if ls.ai = le.ai then
    -- One cell span
    if m ls.ai = expS then
      (true, updw m ls.ai (expS ||| window_bound ls.bi le.bi))
    else (false, m)
  else
    -- Multicell span
    let startBits := window_bound ls.bi 64
    if m ls.ai = expS then
      let m1 := updw m ls.ai (expS ||| startBits)
      let r := casMiddleLoop m1 (ls.ai + 1) le.ai (le.ai - (ls.ai + 1))
      let idx := r.1
      let m2 := r.2
      let success :=
        if idx = le.ai then
          let endBits := window_bound 0 le.bi
          if endBits = 0 then (true, m2)
          else if m2 le.ai = expE then (true, updw m2 le.ai (expE ||| endBits))
          else (false, m2)
        else (false, m2)
      if success.1 then success
      else
        -- Cleanup on failure
        let m3 := storeZerosLoop success.2 (ls.ai + 1) idx (idx - (ls.ai + 1))
        (false, updw m3 ls.ai (m3 ls.ai &&& compl64 startBits))
    else (false, m)

/-- Store loop setting sequence middle words to full ones. -/
def storeOnesLoop (m : Nat → Nat) (i stop : Nat) : Nat → Nat → Nat
  | 0 => m
  | f + 1 => if i < stop then storeOnesLoop (updw m i ones64) (i + 1) stop f else m

/-- `SuperpageTracker::set_sequence_bits`: OR-sets the sequence bits of
all superpages of the acquired run except the first (no CAS needed). -/
def set_sequence_bits (s : Nat → Nat) (ls le : Idx) : Nat → Nat :=
  if ls.ai = le.ai then
    let bits := window_bound (ls.bi + 1) le.bi
    if bits ≠ 0 then updw s ls.ai (s ls.ai ||| bits) else s
  else
    let firstCellBits := window_bound (ls.bi + 1) 64
    let lastCellBits := window_bound 0 le.bi
    let s1 := updw s ls.ai (s ls.ai ||| firstCellBits)
    let s2 := storeOnesLoop s1 (ls.ai + 1) le.ai (le.ai - (ls.ai + 1))
    if lastCellBits ≠ 0 then updw s2 le.ai (s2 le.ai ||| lastCellBits) else s2

/-- `SuperpageTracker::set_bits`: mapping bits first, then, on success,
the sequence bits. -/
def set_bits (tr : TrackerState) (ls : Idx) (expS : Nat) (le : Idx) (expE : Nat) :
    Bool × TrackerState :=
  let r := set_mapping_bits tr.mapping ls expS le expE
  if r.1 then (true, ⟨r.2, set_sequence_bits tr.sequence ls le⟩)
  else (false, ⟨r.2, tr.sequence⟩)

/-- `SuperpageTracker::clear_bits`: sequence table cleared first, then
mapping table.  Note the one-cell span only touches the sequence table
when the cleared range is wider than one bit
(`if (loc_end.bit_idx - loc_start.bit_idx > 1)`). -/
def clear_bits (tr : TrackerState) (ls le : Idx) : TrackerState :=
  if ls.ai = le.ai then
    -- One cell span
    let bits := window_bound ls.bi le.bi
    let s' := if le.bi - ls.bi > 1 then
        updw tr.sequence ls.ai (tr.sequence ls.ai &&& compl64 bits)
      else tr.sequence
    let m' := updw tr.mapping ls.ai (tr.mapping ls.ai &&& compl64 bits)
    ⟨m', s'⟩
  else
    -- Multiple cells span
    let firstCellBits := window_bound ls.bi 64
    let lastCellBits := window_bound 0 le.bi
    let s1 := updw tr.sequence ls.ai (tr.sequence ls.ai &&& compl64 firstCellBits)
    let s2 := storeZerosLoop s1 (ls.ai + 1) le.ai (le.ai - (ls.ai + 1))
    let s3 := if lastCellBits ≠ 0 then
        updw s2 le.ai (s2 le.ai &&& compl64 lastCellBits)
      else s2
    let m1 := updw tr.mapping ls.ai (tr.mapping ls.ai &&& compl64 firstCellBits)
    let m2 := storeZerosLoop m1 (ls.ai + 1) le.ai (le.ai - (ls.ai + 1))
    let m3 := if lastCellBits ≠ 0 then
        updw m2 le.ai (m2 le.ai &&& compl64 lastCellBits)
      else m2
    ⟨m3, s3⟩

/-- `SuperpageTracker::release (superpage_num, superpage_nb)`. -/
def TrackerState.release (tr : TrackerState) (num nb : Nat) : TrackerState :=
  clear_bits tr (Idx.ofNum num) (Idx.ofNum (num + nb))

/-- `SuperpageTracker::trim (superpage_num, superpage_nb)`: release of
all superpages of the block except the first (requires
`ASSERT_STD (superpage_nb > 1)`). -/
def TrackerState.trim (tr : TrackerState) (num nb : Nat) : TrackerState :=
  tr.release (num + 1) (nb - 1)

/-- `SuperpageTracker::is_mapped (superpage_num)`. -/
def TrackerState.is_mapped (tr : TrackerState) (num : Nat) : Bool :=
  let loc := Idx.ofNum num
  is_set (tr.mapping loc.ai) loc.bi

/-- Word-walking loop of `SuperpageTracker::get_block_start_num`: find
the first zero in the sequence table looking backward from `loc`.
`none` models walking below word 0 (`ASSERT_STD (array_idx > 0)` would
fail) or fuel exhaustion; fuel `loc.ai + 1` covers all words. -/
def getBlockStartAux (tr : TrackerState) : Idx → Nat → Option Nat
  | _, 0 => none
  | loc, f + 1 =>
    let c := tr.sequence loc.ai
    let prevZero := find_previous_zero c loc.bi
    if prevZero ≠ 64 then some (Idx.num ⟨loc.ai, prevZero⟩)
    else if loc.ai = 0 then none
    else getBlockStartAux tr ⟨loc.ai - 1, 63⟩ f

/-- `SuperpageTracker::get_block_start_num (superpage_num)`. -/
def TrackerState.get_block_start_num (tr : TrackerState) (num : Nat) : Option Nat :=
  let loc := Idx.ofNum num
  getBlockStartAux tr loc (loc.ai + 1)

/-- Middle-cell zero-check loop of the multicell branch of
`SuperpageTracker::acquire`: returns the first non-zero middle word
(index and loaded value), or `none` if all middle words are zero.
Fuel is `e - i` at the call site. -/
def scanMiddles (tr : TrackerState) : Nat → Nat → Nat → Option (Nat × Nat)
  | _, _, 0 => none
  | i, e, f + 1 =>
    if i < e then
      let c := tr.mapping i
      if c ≠ 0 then some (i, c) else scanMiddles tr (i + 1) e f
    else none

/-- Main search loop of `SuperpageTracker::acquire (superpage_nb)`
(sequential semantics).  `pre` models the `continue_no_load` entry: a
word value already loaded for the current cell.  Returns the first
superpage number of the reserved run and the new state; `none` models
the `ASSERT_FAIL` out-of-memory path (or fuel exhaustion, which does
not occur on the modelled executions). -/
def acquireGo (nb : Nat) (endIdx : Idx) : TrackerState → Idx → Option Nat → Nat →
    Option (Nat × TrackerState)
  | _, _, _, 0 => none
  | tr, sa, pre, f + 1 =>
    if Idx.lt sa endIdx then
      let c := match pre with
        | some c => c
        | none => tr.mapping sa.ai
      if c = ones64 then
        -- Completely full cell, skip
        acquireGo nb endIdx tr ⟨sa.ai + 1, 0⟩ none f
      else
        let limit := if sa.ai = endIdx.ai then endIdx.bi else 64
        let pos := if sa.bi + nb ≤ limit then find_zero_subsequence c nb sa.bi limit else 64
        if pos < 64 then
          -- Sequence contained in one array cell
          let locStart : Idx := ⟨sa.ai, pos⟩
          let locEnd : Idx := ⟨sa.ai, pos + nb⟩
          let r := set_bits tr locStart c locEnd 0
          if r.1 then some (locStart.num, r.2)
          else acquireGo nb endIdx r.2 sa none f
        else
          -- Look for the start of a multicell sequence
          let msbZeros := min (count_msb_zeros c) (64 - sa.bi)
          if 0 < msbZeros then
            let firstCellExpected := c
            let locStart : Idx := ⟨sa.ai, 64 - msbZeros⟩
            let locEnd : Idx := Idx.ofNum (locStart.num + nb)
            let lastCellBits := window_bound 0 locEnd.bi
            if ¬ Idx.lt locEnd endIdx then none
            else
              match scanMiddles tr (locStart.ai + 1) locEnd.ai (locEnd.ai - (locStart.ai + 1)) with
              | some (idx, cmid) =>
                -- Zero sequence not big enough; restart from this cell without reload
                acquireGo nb endIdx tr ⟨idx, 0⟩ (some cmid) f
              | none =>
                -- the C++ variable c now holds the last loaded middle word
                -- (zero) if the span has middle cells, else the head word
                let cMid := if locStart.ai + 1 < locEnd.ai then 0 else c
                if lastCellBits ≠ 0 then
                  let ct := tr.mapping locEnd.ai
                  if ct &&& lastCellBits ≠ 0 then
                    -- Sequence not big enough, restart from this cell
                    acquireGo nb endIdx tr locEnd (some ct) f
                  else
                    let r := set_bits tr locStart firstCellExpected locEnd ct
                    if r.1 then some (locStart.num, r.2)
                    else acquireGo nb endIdx r.2 locStart none f
                else
                  let r := set_bits tr locStart firstCellExpected locEnd cMid
                  if r.1 then some (locStart.num, r.2)
                  else acquireGo nb endIdx r.2 locStart none f
          else
            -- Not found, go to next cell
            acquireGo nb endIdx tr ⟨sa.ai + 1, 0⟩ none f
    else none

/-- `SuperpageTracker::acquire (superpage_nb)`: linear scan of the local
interval (requires `ASSERT_STD (superpage_nb > 0)`). -/
def TrackerState.acquire (tr : TrackerState) (L : GasLayout) (nb fuel : Nat) :
    Option (Nat × TrackerState) :=
  acquireGo nb (Idx.ofNum L.local_area_end_superpage_num) tr
    (Idx.ofNum L.local_area_start_superpage_num) none fuel

/-! ### Thresholds and size classes (src/allocator.h)

`sizeof (UnusedBlock)` is two 8-byte pointers on the required 64-bit
architecture (`next` link and the `spb_ptr` field), hence 16. -/

def sizeof_UnusedBlock : Nat := 16

/-- `Thresholds::Smallest = round_up_as_power_of_2 (sizeof (UnusedBlock))`. -/
def Smallest : Nat := round_up_as_power_of_2 sizeof_UnusedBlock

/-- `Thresholds::SmallMedium = round_up_as_power_of_2 (VMem::PageSize)`. -/
def SmallMedium : Nat := round_up_as_power_of_2 page_size

/-- `SizeClass::min_sizeclass_log = log_2_sup (Thresholds::Smallest)`. -/
def min_sizeclass_log : Nat := log_2_sup Smallest

/-- `SizeClass::id (size) = log_2_sup (size) - min_sizeclass_log`
(requires `size >= Smallest`). -/
def sizeclass_id (size : Nat) : Nat := log_2_sup size - min_sizeclass_log

/-- `SizeClass::Info`. -/
structure SizeClassInfo where
  block_size : Nat
  page_block_size : Nat
  nb_blocks : Nat
  sc_id : Nat
deriving DecidableEq

/-- `SizeClass::make_info (nth)`: `bs = 1 << (nth + min_sizeclass_log)`,
one page per page block, `PageSize / bs` blocks. -/
def make_info (nth : Nat) : SizeClassInfo :=
  ⟨2 ^ (nth + min_sizeclass_log), 1, page_size / 2 ^ (nth + min_sizeclass_log), nth⟩

/-- `SuperpageBlock::HeaderSpacePages = divide_up (sizeof (SuperpageBlock),
page_size)` depends on the machine layout of `SuperpageBlock`; it is kept
as a parameter `H` throughout, with `0 < H < superpage_page_nb` (the
header is nonempty and much smaller than a superpage). -/
def available_pages (H : Nat) : Nat := superpage_page_nb - H

/-- `Thresholds::MediumHigh = SuperpageBlock::AvailablePages * VMem::PageSize`. -/
def medium_high (H : Nat) : Nat := available_pages H * page_size

/-! ### Page blocks and SuperpageBlock (src/allocator.h)

The page-block table is a function from page index (0..511) to the
`PageBlockHeader` record.  The unused quicklist is modelled by its list
of member head-indices plus the `stored_size` counter maintained by
`Intrusive::QuickList` (`insert` conses and adds the element's size,
`remove` erases and subtracts it); bucket structure only affects the
order `take` scans elements, which no modelled operation observes. -/

inductive MemoryType where
  | Small
  | Medium
  | Huge
  | Unused
  | Reserved
deriving DecidableEq

/-- `PageBlockHeader`: format fields plus the Small sub-allocator state.
`sb_unused` is the freed-cell stack (list of cell addresses). -/
structure PBH where
  type : MemoryType
  nb_page : Nat
  head : Nat
  sb_sizeclass : Nat
  sb_nb_carved : Nat
  sb_nb_unused : Nat
  sb_unused : List Nat
deriving DecidableEq

/-- `SuperpageBlock::format_pbh (from, to, type)`: every record of
`[from, to)` gets the type, the run length and the head pointer
(`PageBlockHeader::format` leaves the `sb_*` fields untouched). -/
def format_pbh (tbl : Nat → PBH) (lo hi : Nat) (ty : MemoryType) : Nat → PBH :=
  fun i => if lo ≤ i ∧ i < hi then
      { tbl i with type := ty, nb_page := hi - lo, head := lo }
    else tbl i

/-- `PageBlockHeader::available_small_blocks (info)`. -/
def available_small_blocks (pbh : PBH) (info : SizeClassInfo) : Nat :=
  pbh.sb_nb_unused + (info.nb_blocks - pbh.sb_nb_carved)

/-- `PageBlockHeader::configure_small_blocks (info)`. -/
def configure_small_blocks (pbh : PBH) (info : SizeClassInfo) : PBH :=
  { pbh with sb_sizeclass := info.sc_id, sb_nb_carved := 0, sb_nb_unused := 0, sb_unused := [] }

/-- `SuperpageBlock` state: header fields, page-block table and the
unused quicklist (member heads and `QuickList::stored_size`). -/
structure SPBState where
  start_num : Nat
  superpage_nb : Nat
  huge_alloc_pb_index : Nat
  owner : Option Nat
  table : Nat → PBH
  unused_entries : List Nat
  unused_stored_size : Nat

/-- `Intrusive::QuickList::insert` applied to the header at `h`. -/
def quicklist_insert (spb : SPBState) (h : Nat) : SPBState :=
  { spb with unused_entries := h :: spb.unused_entries,
             unused_stored_size := spb.unused_stored_size + (spb.table h).nb_page }

/-- `Intrusive::QuickList::remove` applied to the header at `h`. -/
def quicklist_remove (spb : SPBState) (h : Nat) : SPBState :=
  { spb with unused_entries := spb.unused_entries.erase h,
             unused_stored_size := spb.unused_stored_size - (spb.table h).nb_page }

/-- `SuperpageBlock::available_pb_index ()`. -/
def available_pb_index (spb : SPBState) : Nat :=
  min spb.huge_alloc_pb_index superpage_page_nb

/-- Initial contents of a default-constructed `PageBlockHeader` (the
constructor formats every index before use, so this value is never
observed). -/
def PBH.base : PBH := ⟨MemoryType.Reserved, 0, 0, 0, 0, 0, []⟩

/-- The `SuperpageBlock` constructor: computes `huge_alloc_pb_index`,
formats the Reserved / Unused / Huge ranges of the page-block table and
unconditionally inserts `pbh_table[HeaderSpacePages]` into the unused
quicklist. -/
def spbInit (H superpage_nb huge_alloc_page_nb : Nat) (owner : Option Nat)
    (start_num : Nat) : SPBState :=
  let idx := superpage_nb * superpage_page_nb - huge_alloc_page_nb
  let available := min idx superpage_page_nb
  let t1 := format_pbh (fun _ => PBH.base) 0 H MemoryType.Reserved
  let t2 := format_pbh t1 H available MemoryType.Unused
  let t3 := format_pbh t2 available superpage_page_nb MemoryType.Huge
  quicklist_insert
    { start_num := start_num, superpage_nb := superpage_nb, huge_alloc_pb_index := idx,
      owner := owner, table := t3, unused_entries := [], unused_stored_size := 0 } H

/-- `SuperpageBlock::all_page_blocks_unused ()`: the unused quicklist
accounts for every page below `available_pb_index` except the header. -/
def all_page_blocks_unused (H : Nat) (spb : SPBState) : Bool :=
  spb.unused_stored_size == available_pb_index spb - H

/-- `SuperpageBlock::completely_unused ()`. -/
def completely_unused (H : Nat) (spb : SPBState) : Bool :=
  spb.superpage_nb == 1 && all_page_blocks_unused H spb

/-- `SuperpageBlock::free_page_block (pbh)` for the run headed at `h`:
merge with Unused neighbours (removing them from the quicklist),
reformat the merged run as Unused and insert it. -/
def free_page_block (spb : SPBState) (h : Nat) : SPBState :=
  let start := h
  let stop := h + (spb.table h).nb_page
  -- Try merge with previous one
  let (spb, start) :=
    if 0 < start ∧ (spb.table (start - 1)).type = MemoryType.Unused then
      let prev := (spb.table (start - 1)).head
      (quicklist_remove spb prev, prev)
    else (spb, start)
  -- Try merge with next one
  let (spb, stop) :=
    if stop < superpage_page_nb ∧ (spb.table stop).type = MemoryType.Unused then
      (quicklist_remove spb stop, stop + (spb.table stop).nb_page)
    else (spb, stop)
  -- Put the merged PB in the list
  let spb := { spb with table := format_pbh spb.table start stop MemoryType.Unused }
  quicklist_insert spb start

/-- `SuperpageBlock::destroy_huge_alloc ()`: reformat the trailing huge
pages of the first superpage (if any) through `free_page_block`, then
trim the block to one superpage. -/
def destroy_huge_alloc (spb : SPBState) : SPBState :=
  let spb :=
    if spb.huge_alloc_pb_index < superpage_page_nb then
      free_page_block spb spb.huge_alloc_pb_index
    else spb
  { spb with superpage_nb := 1 }

/-- `SuperpageBlock::in_huge_alloc (p)` (`spbAddr` is the block's base
address). -/
def in_huge_alloc (spb : SPBState) (spbAddr p : Nat) : Bool :=
  spbAddr + spb.huge_alloc_pb_index * page_size ≤ p

/-- `SuperpageBlock::huge_alloc_memory ()`: base address and size of the
huge allocation (requires `ASSERT_SAFE (superpage_nb > 1)`, disabled in
standard builds). -/
def huge_alloc_memory (spb : SPBState) (spbAddr : Nat) : Nat × Nat :=
  let huge_alloc_page_nb := spb.superpage_nb * superpage_page_nb - spb.huge_alloc_pb_index
  (spbAddr + spb.huge_alloc_pb_index * page_size, huge_alloc_page_nb * page_size)

/-- The two `ASSERT_SAFE` preconditions of
`SuperpageBlock::allocate_page_block (page_nb, type)`:
`page_nb > 0 && page_nb < AvailablePages`. -/
def allocate_page_block_asserts_check (H page_nb : Nat) : Bool :=
  0 < page_nb && page_nb < available_pages H

/-- Page count computed by the medium branch of
`ThreadLocalHeap::allocate`: `divide_up (size, PageSize)`. -/
def medium_page_nb (size : Nat) : Nat := divide_up size page_size

/-! ### MainHeap and ThreadLocalHeap (src/allocator.h)

Thread-local heaps are identified by a `Nat` id.  The global state
gathers the tracker, the live superpage blocks, each heap's
`owned_superpage_blocks` list (by SPB start number), the per-heap
per-sizeclass active small page-block lists (entries are
`(spb start number, page index)`), and each heap's remote-free inbox
(entries are `(block address, spb start number)`, most recent first, as
in the LIFO `Intrusive::ForwardList::Atomic`).  Operations are
sequential: each models one thread's call running without
interference, so every CAS observes the value just loaded. -/

structure HeapState where
  tracker : TrackerState
  spbs : List SPBState
  owned : Nat → List Nat
  active : Nat → Nat → List (Nat × Nat)
  inbox : Nat → List (Nat × Nat)

/-- The empty initial heap state over a zeroed tracker. -/
def HeapState.init : HeapState :=
  ⟨TrackerState.init, [], fun _ => [], fun _ _ => [], fun _ => []⟩

def findSpb (st : HeapState) (start_num : Nat) : Option SPBState :=
  st.spbs.find? (fun s => s.start_num == start_num)

def updateSpb (st : HeapState) (start_num : Nat) (f : SPBState → SPBState) : HeapState :=
  { st with spbs := st.spbs.map (fun s => if s.start_num == start_num then f s else s) }

/-- `MainHeap::destroy_superpage_block (spb)`: release the tracker bits
of the whole block and drop the block (unmapping is an external OS
effect). -/
def main_destroy_superpage_block (st : HeapState) (spb : SPBState) : HeapState :=
  { st with tracker := st.tracker.release spb.start_num spb.superpage_nb,
            spbs := st.spbs.filter (fun s => s.start_num != spb.start_num) }

/-- `ThreadLocalHeap::destroy_superpage_block (spb)`: remove from the
thread's owned list, then destroy through the main heap. -/
def tlh_destroy_superpage_block (self : Nat) (st : HeapState) (spb : SPBState) : HeapState :=
  let st := { st with owned := fun t =>
      if t = self then (st.owned t).erase spb.start_num else st.owned t }
  main_destroy_superpage_block st spb

/-- `MainHeap::destroy_superpage_huge_alloc (spb)`: `none` models the
failure of `ASSERT_STD (spb_size > 1)` (aborts in a standard build);
otherwise trim the tracker and shrink the block header. -/
def main_destroy_superpage_huge_alloc (st : HeapState) (spb : SPBState) : Option HeapState :=
  if spb.superpage_nb ≤ 1 then none
  else
    let st := { st with tracker := st.tracker.trim spb.start_num spb.superpage_nb }
    some (updateSpb st spb.start_num destroy_huge_alloc)

/-- `SuperpageBlock::page_block_header (ptr)`: page index of `p`
within the first superpage, resolved through the record's head
pointer. -/
def page_block_header_idx (spb : SPBState) (spbAddr p : Nat) : Nat :=
  (spb.table ((p - spbAddr) / page_size)).head

/-- `PageBlockHeader::put_small_block (p, info)`: align `p` down to the
block grid, push the cell on the freed stack. -/
def put_small_block (pbh : PBH) (info : SizeClassInfo) (p : Nat) : PBH :=
  let blk := p / info.block_size * info.block_size
  { pbh with sb_unused := blk :: pbh.sb_unused, sb_nb_unused := pbh.sb_nb_unused + 1 }

/-- `ThreadLocalHeap::destroy_page_block (pbh, spb)`: free the page
block inside the SPB, destroying the SPB if it became completely
unused. -/
def tlh_destroy_page_block (H self : Nat) (st : HeapState) (spb : SPBState) (h : Nat) :
    HeapState :=
  let spb' := free_page_block spb h
  let st' := updateSpb st spb.start_num (fun _ => spb')
  if completely_unused H spb' then tlh_destroy_superpage_block self st' spb' else st'

/-- `ThreadLocalHeap::destroy_small_block (ptr, pbh, spb)`: put the cell
back, then destroy the page block when it becomes empty (unlinking its
active-list hook) or relink it when it leaves the full state. -/
def tlh_destroy_small_block (H self : Nat) (st : HeapState) (spb : SPBState) (h p : Nat) :
    HeapState :=
  let info := make_info (spb.table h).sb_sizeclass
  let spb1 := { spb with table :=
      fun i => if i = h then put_small_block (spb.table h) info p else spb.table i }
  let st1 := updateSpb st spb.start_num (fun _ => spb1)
  let avail := available_small_blocks (spb1.table h) info
  if avail = info.nb_blocks then
    -- Destroy page block if unused; intrusive unlink removes the pbh
    -- from whichever active list holds it
    let st2 := { st1 with active := fun t c => ((st1.active t c).erase (spb.start_num, h)) }
    tlh_destroy_page_block H self st2 spb1 h
  else if avail = 1 then
    -- Was fully used before; put back in active list
    { st1 with active := fun t c =>
        if t = self ∧ c = info.sc_id then (spb.start_num, h) :: st1.active t c
        else st1.active t c }
  else st1

/-- `ThreadLocalHeap::thread_local_deallocate (ptr, spb)`: huge branch
(destroy the whole SPB or just the huge part), else dispatch on the
page block's type; `none` models `ASSERT_STD_FAIL` on a neither-Small-
nor-Medium block (and an SPB pointer that matches no live SPB, which
does not occur in correct use). -/
def thread_local_deallocate (L : GasLayout) (H self : Nat) (p spbStart : Nat)
    (st : HeapState) : Option HeapState :=
  match findSpb st spbStart with
  | none => none
  | some spb =>
    let spbAddr := L.superpage spb.start_num
    if in_huge_alloc spb spbAddr p then
      if all_page_blocks_unused H spb then some (tlh_destroy_superpage_block self st spb)
      else main_destroy_superpage_huge_alloc st spb
    else
      let h := page_block_header_idx spb spbAddr p
      if (spb.table h).type = MemoryType.Small then
        some (tlh_destroy_small_block H self st spb h p)
      else if (spb.table h).type = MemoryType.Medium then
        some (tlh_destroy_page_block H self st spb h)
      else none

/-- Walk of the taken remote-free list inside
`ThreadLocalHeap::process_thread_remote_frees`. -/
def processList (L : GasLayout) (H self : Nat) : List (Nat × Nat) → HeapState →
    Option HeapState
  | [], st => some st
  | (p, s) :: rest, st =>
    (thread_local_deallocate L H self p s st).bind (processList L H self rest)

/-- `ThreadLocalHeap::process_thread_remote_frees ()`: atomically take
the whole inbox, then locally free each block using its embedded SPB
pointer. -/
def process_thread_remote_frees (L : GasLayout) (H self : Nat) (st : HeapState) :
    Option HeapState :=
  let lst := st.inbox self
  let st := { st with inbox := fun t => if t = self then [] else st.inbox t }
  processList L H self lst st

/-- Head-to-head iteration of the page-block table
(`for (i = 0; i < SuperpagePageNB; i += pbh (i).size ())`), as used by
the adoption loop of `ThreadLocalHeap::deallocate` and the thread-exit
loop.  Fuel 512 covers all tables whose runs have positive length. -/
def run_heads (tbl : Nat → PBH) : Nat → Nat → List Nat
  | _, 0 => []
  | i, f + 1 =>
    if i < superpage_page_nb then i :: run_heads tbl (i + (tbl i).nb_page) f else []

/-- Active-list pushes performed by the adoption branch of
`ThreadLocalHeap::deallocate`: every page-block head of type Small is
appended to the adopter's active list of its sizeclass.  Entries are
`(sizeclass, page index)` in push order. -/
def adoption_active_push (tbl : Nat → PBH) : List (Nat × Nat) :=
  (run_heads tbl 0 superpage_page_nb).filterMap
    (fun i => if (tbl i).type = MemoryType.Small then some ((tbl i).sb_sizeclass, i) else none)

/-- State change of a successful `SuperpageBlock::adopt` in
`ThreadLocalHeap::deallocate`: set the owner, append to the adopter's
owned list and push the Small page blocks into its active lists. -/
def adoptSpb (self : Nat) (st : HeapState) (spb : SPBState) : HeapState :=
  let st := updateSpb st spb.start_num (fun s => { s with owner := some self })
  let st := { st with owned := fun t =>
      if t = self then st.owned t ++ [spb.start_num] else st.owned t }
  (adoption_active_push spb.table).foldl
    (fun st e => { st with active := fun t c =>
        if t = self ∧ c = e.1 then st.active t c ++ [(spb.start_num, e.2)] else st.active t c })
    st

/-- Remote-push branch of `ThreadLocalHeap::deallocate`: build an
`UnusedBlock` at `p` aligned down to `sizeof (UnusedBlock)` and push it
(with the SPB pointer) on the owner's inbox. -/
def pushRemote (st : HeapState) (ownerId p spbStart : Nat) : HeapState :=
  let blk := p / sizeof_UnusedBlock * sizeof_UnusedBlock
  { st with inbox := fun t =>
      if t = ownerId then (blk, spbStart) :: st.inbox t else st.inbox t }

/-- `ThreadLocalHeap::deallocate (ptr)`: drain the remote inbox; return
immediately for a pointer outside the local interval (the node-remote
TODO); otherwise look up the containing SPB through the tracker, adopt
it if orphan, and free locally or push to the owner's inbox. -/
def deallocate (L : GasLayout) (H self : Nat) (p : Nat) (st : HeapState) :
    Option HeapState :=
  (process_thread_remote_frees L H self st).bind (fun st =>
    if ¬ L.in_local_area p then some st
    else
      (st.tracker.get_block_start_num (L.superpage_num p)).bind (fun spbStart =>
        match findSpb st spbStart with
        | none => none
        | some spb =>
          match spb.owner with
          | none =>
            -- Adopt orphan superpage block (the CAS succeeds in the
            -- sequential model) and fall through to local deallocation
            thread_local_deallocate L H self p spbStart (adoptSpb self st spb)
          | some ow =>
            if ow = self then thread_local_deallocate L H self p spbStart st
            else some (pushRemote st ow p spbStart)))

/-- `MainHeap::create_superpage_block (owner, huge_alloc_size)`:
compute the page and superpage counts, reserve through the tracker and
construct the `SuperpageBlock` in place. -/
def main_create_superpage_block (L : GasLayout) (H owner huge_alloc_size fuel : Nat)
    (st : HeapState) : Option (SPBState × HeapState) :=
  let huge_alloc_page_nb := divide_up huge_alloc_size page_size
  let superpage_nb := divide_up (huge_alloc_page_nb + H) superpage_page_nb
  (st.tracker.acquire L superpage_nb fuel).map (fun r =>
    let spb := spbInit H superpage_nb huge_alloc_page_nb (some owner) r.1
    (spb, { st with tracker := r.2, spbs := st.spbs ++ [spb] }))

/-- Huge branch of `ThreadLocalHeap::allocate`: create an owned SPB for
the request and return its huge-allocation memory (base address and
size). -/
def tlh_allocate_huge (L : GasLayout) (H self size fuel : Nat) (st : HeapState) :
    Option ((Nat × Nat) × HeapState) :=
  (main_create_superpage_block L H self size fuel st).map (fun r =>
    let spb := r.1
    let st := { r.2 with owned := fun t =>
        if t = self then r.2.owned t ++ [spb.start_num] else r.2.owned t }
    (huge_alloc_memory spb (L.superpage spb.start_num), st))

/-- The `size` component of the `Block` returned by
`ThreadLocalHeap::allocate (size, align)` in each of its three
branches: `info.block_size` for a small allocation
(`allocate_small_block`), `page_nb * PageSize` for a medium one
(`allocate_page_block` formats the returned run to exactly `page_nb`
pages, and `page_block_memory` returns `size () * PageSize`), and the
`huge_alloc_memory` size for a huge one. -/
def allocate_actual_size (H size align : Nat) : Nat :=
  let size := max size align
  if size < SmallMedium then
    (make_info (sizeclass_id (max size Smallest))).block_size
  else if size < medium_high H then
    medium_page_nb size * page_size
  else
    let huge_alloc_page_nb := divide_up size page_size
    let superpage_nb := divide_up (huge_alloc_page_nb + H) superpage_page_nb
    let huge_alloc_pb_index := superpage_nb * superpage_page_nb - huge_alloc_page_nb
    (superpage_nb * superpage_page_nb - huge_alloc_pb_index) * page_size

/-! ### Concrete execution traces used by the claim theorems

A small layout: one node of 8 superpages starting at address 0, so the
local interval is superpages `[0, 8)` and the tables fit in one word.
`HeaderSpacePages = 9` is used as the representative concrete value of
the machine-dependent header size (any `0 < H < 512` shows the same
behaviours). -/

def layout0 : GasLayout := ⟨0, 8 * superpage_size, 1, 0⟩

/-- Acquire a 2-superpage block (returned start: superpage 0), then,
as its unique holder, trim it to 1 superpage. -/
def c1Trace : Option TrackerState :=
  (TrackerState.init.acquire layout0 2 100).map (fun r => r.2.trim r.1 2)

/-- Continue the previous trace: acquire a fresh 1-superpage block
(it lands on the just-released superpage 1). -/
def c2Trace : Option (Nat × TrackerState) :=
  c1Trace.bind (fun st => st.acquire layout0 1 100)

/-- Mapping table with a non-zero middle word for the multicell span
`[(0,32), (2,0))`. -/
def mC5 : Nat → Nat := fun i => if i = 1 then 5 else 0

/-- Page-block table of an orphan SPB (`H = 9`) holding one class-0
Small page block at index 9 that is full (all 256 cells carved, none
freed): its owner allocated 256 small blocks of class 0 — whereupon the
full page block was unlinked from the active list — and then exited,
disowning the SPB with the allocations still live. -/
def c4table : Nat → PBH := fun i =>
  if i < 9 then ⟨MemoryType.Reserved, 9, 0, 0, 0, 0, []⟩
  else if i = 9 then ⟨MemoryType.Small, 1, 9, 0, 256, 0, []⟩
  else ⟨MemoryType.Unused, 503, 10, 0, 0, 0, []⟩

/-- Huge allocation of exactly `AvailablePages * PageSize` bytes
(`H = 9`: 503 pages) from a fresh heap: the boundary case where the
huge allocation consumes the whole usable part of its one superpage. -/
def c6Alloc : Option ((Nat × Nat) × HeapState) :=
  tlh_allocate_huge layout0 9 0 (503 * page_size) 100 HeapState.init

/-! ### Claim theorems -/

/-- C1 (code bug): the tracker bitmap invariant fails.  On the
reachable trace `acquire (2) = 0` followed by the holder's
`trim (0, 2)` of the fully reserved block, superpage 1 keeps its
sequence bit although its mapping bit is cleared: `clear_bits` skips
the sequence table for a one-bit-wide release
(`loc_end.bit_idx - loc_start.bit_idx > 1` fails), but the released
superpage 2-of-2 does carry a set sequence bit. -/
theorem c1_trim_leaves_stale_sequence_bit :
    (TrackerState.init.acquire layout0 2 100).map Prod.fst = some 0 ∧
    c1Trace.map (fun st => (is_set (st.sequence 0) 1, is_set (st.mapping 0) 1)) =
      some (true, false) := by
  constructor
  · decide
  · decide

/-- C2 (code bug): `get_block_start_num` is wrong on a state reachable
by correct use.  After `acquire (2) = 0`, holder `trim (0, 2)`, and
`acquire (1) = 1`, superpage 1 is mapped and is the first superpage of
its own (1-superpage) acquired sequence, yet `get_block_start_num (1)`
returns 0: the stale sequence bit left by the trim (claim C1) makes the
backward zero-search walk past the true sequence start. -/
theorem c2_block_start_wrong_after_trim :
    c2Trace.map Prod.fst = some 1 ∧
    c2Trace.map (fun r => (r.2.is_mapped 1, r.2.get_block_start_num 1)) =
      some (true, some 0) := by
  constructor
  · decide
  · decide

/-- C5 counterexample: the middle words of a multicell acquire are not
written by unconditional stores.  On table `mC5` (head word 0 zero,
middle word 1 equal to 5, empty tail window), the head-word CAS of
`set_mapping_bits` succeeds, and under the claim the middle-word write
could not fail, so the operation would succeed and leave the middle
word full-ones; the code's middle-word compare-and-swap fails instead:
the call returns `false` and word 1 still holds 5. -/
theorem c5_middle_word_cas_can_fail :
    mC5 0 = 0 ∧ window_bound 0 (0 : Nat) = 0 ∧
    (set_mapping_bits mC5 ⟨0, 32⟩ 0 ⟨2, 0⟩ 0).1 = false ∧
    (set_mapping_bits mC5 ⟨0, 32⟩ 0 ⟨2, 0⟩ 0).2 1 = 5 ∧
    (set_mapping_bits mC5 ⟨0, 32⟩ 0 ⟨2, 0⟩ 0).2 0 = 0 := by
  refine ⟨rfl, by decide, by decide, by decide, by decide⟩

/-- C4 (code bug): the adoption branch of `ThreadLocalHeap::deallocate`
pushes every Small page block of the adopted SPB into the adopter's
active lists, including full ones.  On `c4table` (an orphan SPB whose
class-0 Small page block at index 9 is full), the push loop emits the
full block, although a full block must not be linked into an active
list (`PageBlockHeader` doc and claim C4). -/
theorem c4_adoption_pushes_full_page_block :
    (c4table 9).type = MemoryType.Small ∧
    available_small_blocks (c4table 9) (make_info (c4table 9).sb_sizeclass) = 0 ∧
    (0, 9) ∈ adoption_active_push c4table := by
  refine ⟨rfl, by decide, by decide⟩

/-- C7 (code bug): the `SuperpageBlock` constructor for
`superpage_nb = 1`, `huge_alloc_page_nb = AvailablePages` (the state
built by `MainHeap::create_superpage_block` for a huge request of
exactly `AvailablePages * PageSize` bytes, here with `H = 9`)
unconditionally inserts `pbh_table[HeaderSpacePages]` into the unused
quicklist, although the usable Unused range `[H, available)` is empty
and that record heads the Huge run: the quicklist holds one entry while
the table holds no Unused run at all. -/
theorem c7_constructor_quicklist_entry_is_huge :
    (spbInit 9 1 503 none 0).unused_entries = [9] ∧
    (spbInit 9 1 503 none 0).unused_stored_size = 503 ∧
    ((spbInit 9 1 503 none 0).table 9).type = MemoryType.Huge ∧
    (∀ i, i < 512 →
      ¬ (((spbInit 9 1 503 none 0).table i).type = MemoryType.Unused ∧
         ((spbInit 9 1 503 none 0).table i).head = i)) := by
  refine ⟨by decide, by decide, by decide, by decide⟩

/-- C6 (code bug): the allocate/deallocate round trip does not restore
the tracker for `s = AvailablePages * PageSize`, `a = 1`.  The huge
allocation succeeds (base = superpage 0 + 9 header pages, size
`503 * PageSize`) and sets the mapping bit of superpage 0; the
subsequent `deallocate` of that base aborts (`none`): the bogus
quicklist entry of claim C7 makes `all_page_blocks_unused` false, so
`thread_local_deallocate` calls `MainHeap::destroy_superpage_huge_alloc`
on a 1-superpage block and `ASSERT_STD (spb_size > 1)` fails — the
superpage is never released and the mapping bit stays set. -/
theorem c6_huge_roundtrip_aborts_without_release :
    TrackerState.init.is_mapped 0 = false ∧
    c6Alloc.map Prod.fst = some (9 * page_size, 503 * page_size) ∧
    c6Alloc.map (fun r =>
      ((deallocate layout0 9 0 (9 * page_size) r.2).map (fun _ => true),
        r.2.tracker.is_mapped 0)) = some (none, true) := by
  refine ⟨by decide, by decide, by decide⟩

/-! Helper lemmas for the arithmetic theorems. -/

lemma le_divide_up_mul (n d : Nat) (hd : 0 < d) (h : n + d - 1 < 2 ^ 64) :
    n ≤ divide_up n d * d := by
  unfold divide_up
  rw [Nat.mod_eq_of_lt h]
  have h1 := Nat.div_add_mod (n + d - 1) d
  have h2 : (n + d - 1) % d < d := Nat.mod_lt _ hd
  rw [Nat.mul_comm]
  omega

lemma divide_up_mul (a d : Nat) (hd : 0 < d) (h : a * d + d - 1 < 2 ^ 64) :
    divide_up (a * d) d = a := by
  unfold divide_up
  rw [Nat.mod_eq_of_lt h, Nat.mul_comm a d]
  have h1 : d * a + d - 1 = d * a + (d - 1) := by omega
  rw [h1, Nat.mul_add_div hd]
  have h2 : (d - 1) / d = 0 := Nat.div_eq_of_lt (by omega)
  omega

lemma lt_two_pow_loopLenAux : ∀ (f c : Nat), c < 2 ^ f → c < 2 ^ loopLenAux f c := by
  intro f
  induction f with
  | zero =>
    intro c hc
    have : c = 0 := by omega
    subst this
    decide
  | succ f ih =>
    intro c hc
    by_cases hc0 : c = 0
    · subst hc0
      simp [loopLenAux]
    · show c < 2 ^ (if c = 0 then 0 else loopLenAux f (c / 2) + 1)
      rw [if_neg hc0]
      have hpow : (2 : Nat) ^ (f + 1) = 2 ^ f * 2 := by rw [Nat.pow_succ]
      have hdiv : c / 2 < 2 ^ f := by omega
      have hrec := ih (c / 2) hdiv
      rw [Nat.pow_succ]
      omega

lemma loopLenAux_le : ∀ (f c : Nat), loopLenAux f c ≤ f := by
  intro f
  induction f with
  | zero => intro c; exact Nat.le_refl _
  | succ f ih =>
    intro c
    show (if c = 0 then 0 else loopLenAux f (c / 2) + 1) ≤ f + 1
    by_cases hc0 : c = 0
    · rw [if_pos hc0]; omega
    · rw [if_neg hc0]
      have := ih (c / 2)
      omega

lemma le_small_block_size (s : Nat) (hs : s ≤ 4096) :
    s ≤ (make_info (sizeclass_id (max s Smallest))).block_size := by
  have hSm : Smallest = 16 := by decide
  rw [hSm]
  set x := max s 16 with hx
  have hx16 : 16 ≤ x := le_max_right _ _
  have hxs : s ≤ x := le_max_left _ _
  have hxle : x ≤ 4096 := by omega
  set L := loopLenAux 64 (x - 1) with hL
  have hL1 : x - 1 < 2 ^ L := lt_two_pow_loopLenAux 64 (x - 1) (by omega)
  have hL2 : L ≤ 64 := loopLenAux_le _ _
  have hL3 : 4 ≤ L := by
    by_contra hcon
    have hle : (2 : Nat) ^ L ≤ 2 ^ 3 := Nat.pow_le_pow_right (by omega) (by omega)
    omega
  have hmin : min_sizeclass_log = 4 := by decide
  have hsup : log_2_sup x = L := by
    unfold log_2_sup log_2_inf count_msb_zeros
    omega
  show s ≤ (make_info (sizeclass_id x)).block_size
  unfold make_info sizeclass_id
  rw [hmin, hsup]
  have harg : L - 4 + 4 = L := by omega
  show s ≤ 2 ^ (L - 4 + 4)
  rw [harg]
  omega

/-- C3 (confirmed): a huge request of exactly `AvailablePages * PageSize`
bytes.  `MainHeap::create_superpage_block` computes
`huge_alloc_page_nb = AvailablePages` and `superpage_nb = 1`, so the
constructed block is `spbInit H 1 AvailablePages`; its
`superpage_count` is 1, its `huge_alloc_page_index` equals
`HeaderSpacePages = H`, and `huge_alloc_memory` (the block returned by
the huge branch of `allocate`) starts right after the header and covers
the remaining `AvailablePages * PageSize` bytes, i.e. the whole usable
part of the superpage (base `A` arbitrary). -/
theorem c3_exact_available_huge_request_is_one_superpage (H A : Nat)
    (h1 : 0 < H) (h2 : H < superpage_page_nb) :
    divide_up (available_pages H * page_size) page_size = available_pages H ∧
    divide_up (available_pages H + H) superpage_page_nb = 1 ∧
    (spbInit H 1 (available_pages H) (some 0) 0).superpage_nb = 1 ∧
    (spbInit H 1 (available_pages H) (some 0) 0).huge_alloc_pb_index = H ∧
    huge_alloc_memory (spbInit H 1 (available_pages H) (some 0) 0) A =
      (A + H * page_size, available_pages H * page_size) ∧
    H * page_size + available_pages H * page_size = superpage_size := by
  have hsp : superpage_page_nb = 512 := rfl
  have hps : page_size = 4096 := rfl
  have hav : available_pages H = 512 - H := by unfold available_pages; rw [hsp]
  rw [hsp] at h2
  refine ⟨?_, ?_, ?_, ?_, ?_, ?_⟩
  · exact divide_up_mul _ _ (by decide) (by rw [hav, hps]; omega)
  · rw [hav, hsp]
    have h3 : 512 - H + H = 512 := by omega
    rw [h3]
    decide
  · simp [spbInit, quicklist_insert]
  · simp [spbInit, quicklist_insert, hav, hsp]
    omega
  · unfold huge_alloc_memory
    simp [spbInit, quicklist_insert, hav, hsp, hps]
    constructor
    · omega
    · omega
  · rw [hav, hps]
    show H * 4096 + (512 - H) * 4096 = 2097152
    omega

/-- Witness for C3 at the representative header size `H = 9`. -/
theorem c3_exact_available_huge_request_witness :
    divide_up (available_pages 9 * page_size) page_size = available_pages 9 ∧
    divide_up (available_pages 9 + 9) superpage_page_nb = 1 ∧
    (spbInit 9 1 (available_pages 9) (some 0) 0).superpage_nb = 1 ∧
    (spbInit 9 1 (available_pages 9) (some 0) 0).huge_alloc_pb_index = 9 ∧
    huge_alloc_memory (spbInit 9 1 (available_pages 9) (some 0) 0) 0 =
      (0 + 9 * page_size, available_pages 9 * page_size) ∧
    9 * page_size + available_pages 9 * page_size = superpage_size :=
  c3_exact_available_huge_request_is_one_superpage 9 0 (by decide) (by decide)

/-- C8 amended: for `align` a power of two of at most one page and a
request that does not overflow the `size_t` page rounding, the returned
`actual_size` is at least the requested size; and a zero-size request
whose alignment is at most the smallest block size (16) returns exactly
the block size of the smallest size class. -/
theorem c8_actual_size_ge_requested (H size align : Nat)
    (hpow : is_power_of_2 align = true) (hal : align ≤ page_size)
    (hH : H < superpage_page_nb) (hov : size + page_size ≤ 2 ^ 64) :
    size ≤ allocate_actual_size H size align ∧
    (size = 0 → align ≤ Smallest →
      allocate_actual_size H size align = (make_info 0).block_size) := by
  have hps : page_size = 4096 := rfl
  have hsp : superpage_page_nb = 512 := rfl
  have hSmM : SmallMedium = 4096 := by decide
  have hpos : 0 < align := by
    unfold is_power_of_2 at hpow
    simp only [Bool.and_eq_true, decide_eq_true_eq] at hpow
    exact hpow.1
  rw [hps] at hal hov
  rw [hsp] at hH
  have hsz : size ≤ max size align := le_max_left _ _
  have hup : max size align + 4095 < 2 ^ 64 := by omega
  constructor
  · simp only [allocate_actual_size]
    split_ifs with h1 h2
    · -- small branch
      have := le_small_block_size (max size align) (by omega)
      omega
    · -- medium branch
      simp only [medium_page_nb, hps]
      have h3 := le_divide_up_mul (max size align) 4096 (by omega) (by omega)
      omega
    · -- huge branch
      simp only [hps, hsp]
      have h3 := le_divide_up_mul (max size align) 4096 (by omega) (by omega)
      have hplt : divide_up (max size align) 4096 < 2 ^ 52 := by
        unfold divide_up
        omega
      have h4 := le_divide_up_mul (divide_up (max size align) 4096 + H) 512
        (by omega) (by omega)
      omega
  · intro hs0 hal16
    have hSm : Smallest = 16 := by decide
    rw [hSm] at hal16
    subst hs0
    have hmx : max 0 align = align := by omega
    simp only [allocate_actual_size, hmx]
    rw [if_pos (by omega : align < SmallMedium)]
    have hmx2 : max align Smallest = 16 := by rw [hSm]; omega
    rw [hmx2]
    have : sizeclass_id 16 = 0 := by decide
    rw [this]

/-- Witness for C8 at `H = 9`, `size = 0`, `align = 1`. -/
theorem c8_actual_size_ge_requested_witness :
    0 ≤ allocate_actual_size 9 0 1 ∧
    (0 = 0 → 1 ≤ Smallest → allocate_actual_size 9 0 1 = (make_info 0).block_size) :=
  c8_actual_size_ge_requested 9 0 1 (by decide) (by decide) (by decide) (by decide)

/-! Characterisation of the middle-word CAS loop of `set_mapping_bits`,
used by the amended claim C5. -/

lemma casMiddleLoop_snd_outside (e : Nat) :
    ∀ (f : Nat) (m : Nat → Nat) (i k : Nat), k < i ∨ e ≤ k →
      (casMiddleLoop m i e f).2 k = m k := by
  intro f
  induction f with
  | zero => intro m i k _; rfl
  | succ f ih =>
    intro m i k hk
    show ((if i < e then
        if m i = 0 then casMiddleLoop (updw m i ones64) (i + 1) e f else (i, m)
      else (i, m)).2 k) = m k
    by_cases h1 : i < e
    · rw [if_pos h1]
      by_cases h2 : m i = 0
      · rw [if_pos h2, ih (updw m i ones64) (i + 1) k (by omega)]
        unfold updw
        rw [if_neg (by omega : ¬ k = i)]
      · rw [if_neg h2]
    · rw [if_neg h1]

lemma casMiddleLoop_fst_eq (e : Nat) :
    ∀ (f : Nat) (m : Nat → Nat) (i : Nat), i ≤ e → e - i ≤ f →
      ((casMiddleLoop m i e f).1 = e ↔ ∀ j, i ≤ j → j < e → m j = 0) := by
  intro f
  induction f with
  | zero =>
    intro m i hie hf
    have hi : i = e := by omega
    subst hi
    constructor
    · intro _ j hj1 hj2
      omega
    · intro _
      rfl
  | succ f ih =>
    intro m i hie hf
    show ((if i < e then
        if m i = 0 then casMiddleLoop (updw m i ones64) (i + 1) e f else (i, m)
      else (i, m)).1 = e ↔ _)
    by_cases h1 : i < e
    · rw [if_pos h1]
      by_cases h2 : m i = 0
      · rw [if_pos h2, ih (updw m i ones64) (i + 1) (by omega) (by omega)]
        constructor
        · intro hz j hj1 hj2
          by_cases hji : j = i
          · subst hji
            exact h2
          · have hzz := hz j (by omega) hj2
            unfold updw at hzz
            rw [if_neg hji] at hzz
            exact hzz
        · intro hz j hj1 hj2
          unfold updw
          rw [if_neg (by omega : ¬ j = i)]
          exact hz j (by omega) hj2
      · rw [if_neg h2]
        constructor
        · intro h
          exact absurd h (by omega)
        · intro hz
          exact absurd (hz i (Nat.le_refl i) h1) h2
    · rw [if_neg h1]
      have hi : i = e := by omega
      subst hi
      constructor
      · intro _ j hj1 hj2
        omega
      · intro _
        rfl

/-- C5 amended: in a multi-word acquire whose head-word CAS succeeded,
the middle words are set to full-ones by compare-and-swap expecting
zero — not by an unconditional store — so a middle-word write fails
exactly when the word is non-zero (whereupon the attempt is rolled back
and `set_mapping_bits` returns false); only the tail word is then set
by CAS against its expected value.  Formally: given the head word holds
its expected value, `set_mapping_bits` succeeds iff every middle word
is zero and the tail CAS is trivial (empty tail window) or its expected
value matches. -/
theorem c5_amended_middle_words_set_by_cas (m : Nat → Nat) (ls le : Idx)
    (expS expE : Nat) (hlt : ls.ai < le.ai) (hhead : m ls.ai = expS) :
    ((set_mapping_bits m ls expS le expE).1 = true ↔
      ((∀ j, ls.ai < j → j < le.ai → m j = 0) ∧
       (window_bound 0 le.bi = 0 ∨ m le.ai = expE))) := by
  have hm1eq : ∀ j, ls.ai < j →
      updw m ls.ai (expS ||| window_bound ls.bi 64) j = m j := by
    intro j hj
    unfold updw
    rw [if_neg (by omega : ¬ j = ls.ai)]
  set m1 := updw m ls.ai (expS ||| window_bound ls.bi 64) with hm1
  have hfst := casMiddleLoop_fst_eq le.ai (le.ai - (ls.ai + 1)) m1 (ls.ai + 1)
    (by omega) (by omega)
  have hsnd := casMiddleLoop_snd_outside le.ai (le.ai - (ls.ai + 1)) m1 (ls.ai + 1)
    le.ai (by omega)
  set r := casMiddleLoop m1 (ls.ai + 1) le.ai (le.ai - (ls.ai + 1)) with hr
  have hr2 : r.2 le.ai = m le.ai := by
    rw [hsnd, hm1eq le.ai hlt]
  have hfst' : r.1 = le.ai ↔ ∀ j, ls.ai < j → j < le.ai → m j = 0 := by
    rw [hfst]
    constructor
    · intro hz j hj1 hj2
      rw [← hm1eq j hj1]
      exact hz j (by omega) hj2
    · intro hz j hj1 hj2
      rw [hm1eq j (by omega)]
      exact hz j (by omega) hj2
  simp only [set_mapping_bits]
  rw [if_neg (by omega : ¬ ls.ai = le.ai), if_pos hhead]
  rw [← hm1, ← hr]
  by_cases hA : r.1 = le.ai
  · rw [if_pos hA]
    by_cases hB : window_bound 0 le.bi = 0
    · rw [if_pos hB]
      simp only [if_pos rfl]
      exact iff_of_true rfl ⟨hfst'.mp hA, Or.inl hB⟩
    · rw [if_neg hB]
      by_cases hC : r.2 le.ai = expE
      · rw [if_pos hC]
        simp only [if_pos rfl]
        exact iff_of_true rfl ⟨hfst'.mp hA, Or.inr (by rw [← hr2]; exact hC)⟩
      · rw [if_neg hC]
        simp only
        refine iff_of_false (by simp) ?_
        rintro ⟨_, hOr | hOr⟩
        · exact hB hOr
        · exact hC (by rw [hr2]; exact hOr)
  · rw [if_neg hA]
    simp only
    refine iff_of_false (by simp) ?_
    rintro ⟨hz, _⟩
    exact hA (hfst'.mpr hz)

/-- Witness for the amended C5: on an all-zero table the multicell
span `[(0,32), (2,0))` succeeds. -/
theorem c5_amended_middle_words_witness :
    (set_mapping_bits (fun _ => 0) ⟨0, 32⟩ 0 ⟨2, 0⟩ 0).1 = true :=
  (c5_amended_middle_words_set_by_cas (fun _ => 0) ⟨0, 32⟩ ⟨2, 0⟩ 0 0
      (by decide) rfl).mpr
    ⟨fun _ _ _ => rfl, Or.inl (by decide)⟩

/-- C10 (confirmed): for a pointer outside the local interval,
`ThreadLocalHeap::deallocate` drains the caller's remote-free inbox and
returns at once: the resulting state is exactly the state produced by
`process_thread_remote_frees` — no tracker lookup, no bitmap, SPB,
page-block, active-list or inbox change beyond the drain itself. -/
theorem c10_nonlocal_deallocate_only_drains (L : GasLayout) (H self p : Nat)
    (st : HeapState) (h : L.in_local_area p = false) :
    deallocate L H self p st = process_thread_remote_frees L H self st := by
  unfold deallocate
  cases hp : process_thread_remote_frees L H self st with
  | none => rfl
  | some st' => simp [h]

/-- Witness for C10: a pointer one superpage past the local interval of
`layout0`, on the empty heap. -/
theorem c10_nonlocal_deallocate_witness :
    deallocate layout0 9 0 (8 * superpage_size) HeapState.init =
      process_thread_remote_frees layout0 9 0 HeapState.init :=
  c10_nonlocal_deallocate_only_drains layout0 9 0 (8 * superpage_size)
    HeapState.init (by decide)

/-- C8 counterexample: `allocate (0, 64)` (zero size, power-of-two
alignment 64 ≤ one page) returns `actual_size = 64`, the block size of
class `sizeclass_id (64)`, not the block size 16 of the smallest size
class; and for `size = 2^64 - 1` the `size_t` page rounding of the huge
branch wraps and the returned block has `actual_size = 0 < size`. -/
theorem c8_zero_size_with_alignment_counterexample :
    is_power_of_2 64 = true ∧ (64 : Nat) ≤ page_size ∧
    (make_info 0).block_size = 16 ∧
    allocate_actual_size 9 0 64 = 64 ∧
    allocate_actual_size 9 (2 ^ 64 - 1) 1 = 0 := by
  refine ⟨by decide, by decide, by decide, by decide, by decide⟩

/-- C9 (code bug): the top medium size violates the page-count
assertion.  For `size = MediumHigh - 1` (with `H = 9`: 2060287 bytes),
the medium branch of `allocate` computes
`page_nb = divide_up (size, PageSize) = AvailablePages = 503`, and the
`ASSERT_SAFE (page_nb < AvailablePages)` precondition of
`SuperpageBlock::allocate_page_block` is false, although the size is a
legitimate medium request (`SmallMedium ≤ size < MediumHigh`). -/
theorem c9_top_medium_size_violates_page_nb_assert :
    SmallMedium ≤ medium_high 9 - 1 ∧
    medium_high 9 - 1 < medium_high 9 ∧
    medium_page_nb (medium_high 9 - 1) = available_pages 9 ∧
    allocate_page_block_asserts_check 9 (medium_page_nb (medium_high 9 - 1)) = false := by
  refine ⟨by decide, by decide, by decide, by decide⟩

end Givy
